import Mathlib

/-!
Verification development for the tanzu-cli plugin manager core.

The Go sources are embedded shallowly:
  - Go maps are modelled as association lists in insertion order
    (`List (String × β)` with `assocLookup`, `assocSet`, `assocRemove`);
    the claims settled here depend only on lookup/membership, never on
    Go map iteration order.
  - Machine integers do not occur on the verified paths; versions are
    parsed into `Nat` components.
  - Fallible Go code (runtime panics such as nil-pointer dereference or
    index out of range) is embedded by returning `Option`, with `none`
    standing for the crash.
-/

namespace TanzuCLI

/-! ## Association-list model of Go maps -/

/-- Lookup in an association list, the model of a Go map read `m[k]`. -/
def assocLookup {β : Type} (k : String) : List (String × β) → Option β
  | [] => none
  | (k', v) :: t => if k' = k then some v else assocLookup k t

/-- Update or insert, the model of a Go map write `m[k] = v`. -/
def assocSet {β : Type} (k : String) (v : β) : List (String × β) → List (String × β)
  | [] => [(k, v)]
  | (k', v') :: t => if k' = k then (k, v) :: t else (k', v') :: assocSet k v t

/-- Removal, the model of Go `delete(m, k)`. -/
def assocRemove {β : Type} (k : String) : List (String × β) → List (String × β)
  | [] => []
  | (k', v') :: t => if k' = k then assocRemove k t else (k', v') :: assocRemove k t

theorem assocLookup_set_self {β : Type} (k : String) (v : β) (m : List (String × β)) :
    assocLookup k (assocSet k v m) = some v := by
  induction m with
  | nil => simp [assocLookup, assocSet]
  | cons hd t ih =>
    obtain ⟨k', v'⟩ := hd
    by_cases h : k' = k
    · subst h; simp [assocLookup, assocSet]
    · simp [assocLookup, assocSet, h, ih]

theorem assocLookup_set_ne {β : Type} {k k' : String} (hne : k' ≠ k) (v : β)
    (m : List (String × β)) : assocLookup k' (assocSet k v m) = assocLookup k' m := by
  induction m with
  | nil => simp [assocLookup, assocSet]; exact fun h => hne h.symm
  | cons hd t ih =>
    obtain ⟨k'', v''⟩ := hd
    by_cases h : k'' = k
    · subst h
      simp only [assocSet, if_pos rfl, assocLookup]
      rw [if_neg (fun h => hne h.symm), if_neg (fun h => hne h.symm)]
    · simp only [assocSet, if_neg h, assocLookup]
      by_cases h2 : k'' = k'
      · simp [h2]
      · simp [h2, ih]

theorem assocLookup_remove_self {β : Type} (k : String) (m : List (String × β)) :
    assocLookup k (assocRemove k m) = none := by
  induction m with
  | nil => simp [assocLookup, assocRemove]
  | cons hd t ih =>
    obtain ⟨k', v'⟩ := hd
    by_cases h : k' = k
    · simp [assocRemove, h, ih]
    · simp [assocRemove, assocLookup, h, ih]

theorem assocRemove_of_absent {β : Type} {k : String} {m : List (String × β)}
    (h : assocLookup k m = none) : assocRemove k m = m := by
  induction m with
  | nil => simp [assocRemove]
  | cons hd t ih =>
    obtain ⟨k', v'⟩ := hd
    by_cases hk : k' = k
    · simp [assocLookup, hk] at h
    · simp only [assocLookup, if_neg hk] at h
      simp [assocRemove, hk, ih h]

/-! ## Semantic versions

The Go helper `SortVersions` (package `utils`, also re-exported in package
`discovery`) is not part of the provided sources; only its callers are.
It is modelled from the spec below. -/

/-- Semantic version: `major.minor.patch` with an optional pre-release suffix. -/
structure SemVer where
  major : Nat
  minor : Nat
  patch : Nat
  pre : String
deriving DecidableEq, Repr

def digitVal? (c : Char) : Option Nat :=
  if c.isDigit then some (c.toNat - 48) else none

def charsToNatAux : List Char → Nat → Option Nat
  | [], acc => some acc
  | c :: cs, acc =>
    match digitVal? c with
    | some d => charsToNatAux cs (acc * 10 + d)
    | none => none

/-- Parse a non-empty all-digit character list into a `Nat`. -/
def charsToNat? (cs : List Char) : Option Nat :=
  match cs with
  | [] => none
  | _ => charsToNatAux cs 0

/-- Split a character list on a separator character. -/
def splitOnChar (c : Char) : List Char → List (List Char)
  | [] => [[]]
  | x :: xs =>
    let r := splitOnChar c xs
    if x = c then [] :: r
    else
      match r with
      | h :: t => (x :: h) :: t
      | [] => [[x]]

/-- Modelled from the spec: a semantic-version string is
`major.minor.patch` (optionally prefixed by `v`) with an optional
pre-release suffix introduced by `-`.  Anything else fails to parse. -/
def parseSemVer (s : String) : Option SemVer :=
  let cs : List Char := s.toList
  let cs :=
    match cs with
    | 'v' :: rest => rest
    | other => other
  let core := cs.takeWhile (fun c => c ≠ '-')
  let rest := cs.dropWhile (fun c => c ≠ '-')
  let pre : List Char :=
    match rest with
    | _ :: r => r
    | [] => []
  match splitOnChar '.' core with
  | [a, b, c] =>
    match charsToNat? a, charsToNat? b, charsToNat? c with
    | some ma, some mi, some pa =>
      some { major := ma, minor := mi, patch := pa, pre := String.mk pre }
    | _, _, _ => none
  | _ => none

/-- Lexicographic comparison key for a parsed semantic version:
major, then minor, then patch, then release-after-pre-release
(`Bool` is `false` for a pre-release, and `false < true`),
then the pre-release text. -/
abbrev SVKey : Type := Nat ×ₗ (Nat ×ₗ (Nat ×ₗ (Bool ×ₗ String)))

def svKey (v : SemVer) : SVKey :=
  toLex (v.major, toLex (v.minor, toLex (v.patch, toLex (decide (v.pre = ""), v.pre))))

/-- Comparison key for a version string: parseable versions sort by their
semantic-version key and come before unparseable strings, which sort by
plain string order among themselves. -/
abbrev VerKey : Type := SVKey ⊕ₗ String

def verKey (s : String) : VerKey :=
  match parseSemVer s with
  | some v => toLex (Sum.inl (svKey v))
  | none => toLex (Sum.inr s)

/-- Modelled from the spec: the semantic-version ordering on version
strings (major.minor.patch, pre-release segments sort before release). -/
def verLe (a b : String) : Prop := verKey a ≤ verKey b

instance : DecidableRel verLe := fun a b =>
  inferInstanceAs (Decidable (verKey a ≤ verKey b))

instance : IsTotal String verLe := ⟨fun a b => le_total (verKey a) (verKey b)⟩

instance : IsTrans String verLe := ⟨fun _ _ _ h1 h2 => le_trans h1 h2⟩

theorem verLe_refl (a : String) : verLe a a := le_refl (verKey a)

/-- Modelled from the spec: `SortVersions` sorts a list of version strings
ascending by semantic-version order; if some entry is not a semantic
version it fails, leaving the list unchanged.  The `Bool` is `true` on
success (the Go function returns an `error` on failure). -/
def sortVersions (vs : List String) : List String × Bool :=
  if vs.all (fun v => (parseSemVer v).isSome) then
    (List.insertionSort verLe vs, true)
  else
    (vs, false)

/-! ## Discovery data model (pkg/distribution, pkg/discovery, pkg/common) -/

/-- Constant `common.PluginScopeStandalone`. -/
def pluginScopeStandalone : String := "Standalone"

/-- Constant `common.PluginStatusNotInstalled`. -/
def pluginStatusNotInstalled : String := "not installed"

/-- Constant `common.DiscoveryTypeOCI`. -/
def discoveryTypeOCI : String := "oci"

/-- Embeds `distribution.Artifact`: one downloadable binary of a plugin
version for one OS/architecture pair. -/
structure Artifact where
  Image : String
  URI : String
  Digest : String
  OS : String
  Arch : String
deriving DecidableEq, Repr

/-- Embeds `distribution.ArtifactList`. -/
abbrev ArtifactList : Type := List Artifact

/-- Embeds `distribution.Artifacts`, the Go map from version string to
artifact list, as an association list. -/
abbrev Artifacts : Type := List (String × ArtifactList)

/-- Embeds `discovery.Discovered`.  `Target` is the converted target
string of `cliv1alpha1.Target` ("kubernetes", "mission-control" or ""). -/
structure Discovered where
  Name : String
  Description : String
  RecommendedVersion : String
  InstalledVersion : String
  SupportedVersions : List String
  Optional : Bool
  Scope : String
  Source : String
  ContextName : String
  DiscoveryType : String
  Target : String
  Status : String
  Distribution : Artifacts
deriving DecidableEq, Repr

/-- Embeds `centralRepoRow` (pkg/discovery/oci_central.go): one flat row
of the `PluginBinaries` table. -/
structure CentralRepoRow where
  name : String
  target : String
  recommendedVersion : String
  version : String
  hidden : String
  description : String
  publisher : String
  vendor : String
  os : String
  arch : String
  digest : String
  uri : String
deriving DecidableEq, Repr

/-- Modelled from the spec: `cliv1alpha1.StringToTarget` (the target
enumeration lives in the external tanzu-framework API package).  Targets
are kubernetes, mission-control, or the unspecified/default target `""`;
an unrecognized target string degrades to the default target. -/
def stringToTarget (t : String) : String :=
  if t = "kubernetes" || t = "k8s" then "kubernetes"
  else if t = "mission-control" || t = "tmc" then "mission-control"
  else ""

/-- Lower-casing of a string, character by character (the model of Go
`strings.ToLower` restricted to ASCII, which covers the target column). -/
def toLowerStr (s : String) : String :=
  String.mk (s.toList.map Char.toLower)

/-- Embeds `convertTargetFromDB`: lower-case the raw column, map the
literal `global` to the unspecified target, then convert. -/
def convertTargetFromDB (target : String) : String :=
  let target := toLowerStr target
  let target := if target = "global" then "" else target
  stringToTarget target

/-- Embeds `catalog.PluginNameTarget`: the unique string key of a
(name, target) pair; the target is appended only when non-empty. -/
def pluginNameTarget (pluginName : String) (target : String) : String :=
  if target = "" then pluginName else pluginName ++ "_" ++ target

/-- Join character-list segments with a separator character. -/
def joinWithChar (c : Char) : List (List Char) → List Char
  | [] => []
  | [x] => x
  | x :: xs => x ++ c :: joinWithChar c xs

/-- Model of Go `path.Dir` restricted to the slash-separated paths used
for OCI image references (no `.`/`..` cleaning): everything before the
last separator, or `.` when there is none. -/
def pathDir (s : String) : String :=
  let parts := splitOnChar '/' s.toList
  if parts.length ≤ 1 then "."
  else String.mk (joinWithChar '/' parts.dropLast)

/-- Embeds `appendPlugin` (oci_central.go): sort the gathered
`SupportedVersions` ascending and, when the database supplied no
recommended version, pick the last (highest) supported version.  With an
empty `SupportedVersions` and no recommended version the Go code indexes
`SupportedVersions[-1]`: an index-out-of-range panic, embedded as `none`. -/
def appendPlugin (allPlugins : List Discovered) (plugin : Discovered) :
    Option (List Discovered) :=
  let sorted := (sortVersions plugin.SupportedVersions).1
  let plugin := { plugin with SupportedVersions := sorted }
  if plugin.RecommendedVersion = "" then
    match sorted.getLast? with
    | none => none
    | some last => some (allPlugins ++ [{ plugin with RecommendedVersion := last }])
  else
    some (allPlugins ++ [plugin])

/-- The loop state of `getPluginsFromDB`: the Go locals mutated while
scanning the ordered row stream. -/
structure ScanState where
  currentPluginID : String
  currentVersion : String
  currentPlugin : Option Discovered
  allPlugins : List Discovered
  artifactList : ArtifactList
  artifacts : Artifacts
deriving Repr

/-- The state of the Go locals before the first row. -/
def initialScanState : ScanState :=
  { currentPluginID := "", currentVersion := "", currentPlugin := none,
    allPlugins := [], artifactList := [], artifacts := [] }

/-- Embeds one iteration of the row loop of `getPluginsFromDB`.
`none` embeds a nil-pointer dereference (a row whose plugin key equals
the sentinel `""` while no plugin is open) or a panic propagated from
`appendPlugin`. -/
def processRow (imagePrefix : String) (st : ScanState) (row : CentralRepoRow) :
    Option ScanState := do
  let target := convertTargetFromDB row.target
  let pluginIdFromRow := pluginNameTarget row.name target
  -- Plugin boundary: flush the previous plugin and open a new record.
  let st ←
    if st.currentPluginID ≠ pluginIdFromRow then do
      let st ←
        match st.currentPlugin with
        | some p => do
          let arts := assocSet st.currentVersion st.artifactList st.artifacts
          let all ← appendPlugin st.allPlugins { p with Distribution := arts }
          pure { st with allPlugins := all, artifactList := [], artifacts := arts }
        | none => pure st
      pure { st with
        currentPluginID := pluginIdFromRow,
        currentPlugin := some
          { Name := row.name, Description := row.description,
            RecommendedVersion := row.recommendedVersion, InstalledVersion := "",
            SupportedVersions := [], Optional := false,
            Scope := pluginScopeStandalone, Source := "Central Repository",
            ContextName := "", DiscoveryType := discoveryTypeOCI,
            Target := target, Status := pluginStatusNotInstalled,
            Distribution := [] },
        currentVersion := "", artifacts := [] }
    else pure st
  -- Version boundary: record the new version and flush the previous
  -- version's artifact list.
  let st ←
    if st.currentVersion ≠ row.version then
      match st.currentPlugin with
      | none => none
      | some p =>
        let p := { p with SupportedVersions := p.SupportedVersions ++ [row.version] }
        let (arts, al) :=
          if st.currentVersion ≠ "" then
            (assocSet st.currentVersion st.artifactList st.artifacts, ([] : ArtifactList))
          else
            (st.artifacts, st.artifactList)
        pure { st with
          currentPlugin := some p,
          artifacts := arts,
          artifactList := al,
          currentVersion := row.version }
    else pure st
  -- Accumulate this row's artifact under the open version.
  let fullImagePath := imagePrefix ++ "/" ++ row.uri
  let artifact : Artifact :=
    { Image := fullImagePath, URI := "", Digest := row.digest,
      OS := row.os, Arch := row.arch }
  pure { st with artifactList := st.artifactList ++ [artifact] }

/-- Embeds `getPluginsFromDB` (oci_central.go, rows already ordered by
(PluginName, Target, Version) by the SQL query): the left-to-right scan
over the row stream, followed by the end-of-stream `appendPlugin` call on
the still-open plugin.  Note the Go code appends the final plugin without
first storing the open artifact list into `artifacts` and without
assigning `Distribution`; the embedding reproduces that.  `none` embeds a
runtime panic (in particular `appendPlugin` dereferencing the nil
`currentPlugin` when the stream was empty). -/
def getPluginsFromDB (image : String) (rows : List CentralRepoRow) :
    Option (List Discovered) := do
  let imagePrefix := pathDir image
  let st ← rows.foldlM (processRow imagePrefix) initialScanState
  match st.currentPlugin with
  | none => none
  | some p => appendPlugin st.allPlugins p

/-! ## Generic data store (pkg/datastore/data_store.go)

The backing file is a single YAML document.  Its decoded generic content
is modelled by `DSValue`; a Go `nil` interface value (absent key, YAML
null) is `DSValue.null`.  YAML marshal followed by unmarshal is the
identity on these already-generic decoded values, so the on-disk document
is modelled directly by its decoded map.  The model covers the
failure-free filesystem (no disk-full, permission or decode failures):
the only errors present are the ones these functions construct
themselves, which is what the claims are about. -/

/-- Generic decoded YAML value (`DataStoreValue`, the Go empty
interface).  `time` holds the RFC3339 text of a YAML timestamp scalar. -/
inductive DSValue where
  | null
  | bool (b : Bool)
  | int (n : Int)
  | str (s : String)
  | time (t : String)
  | list (xs : List DSValue)
  | map (kvs : List (String × DSValue))

/-- Embeds `dataStoreContent`: the decoded document. -/
abbrev DSMap : Type := List (String × DSValue)

/-- The observable on-disk state for the data store: whether the backing
directory exists, and the decoded backing file (`none` when the file is
missing; an empty or null document is `some []`). -/
structure DSState where
  dirExists : Bool
  file : Option DSMap

/-- Embeds the read path `getDataStoreContent(false)`: a shared-lock read
that decodes the document; a missing file is not an error and yields the
nil content.  It performs no directory or file creation. -/
def getDataStoreContentRead (st : DSState) : Option DSMap := st.file

/-- Embeds `GetDataStoreValue`: returns `(value, error)` — the Go
signature has no found-flag.  An absent key yields the zero interface
value (modelled `DSValue.null`) with a nil error.  The final component is
the on-disk state after the call, which the read path never changes. -/
def GetDataStoreValue (st : DSState) (key : String) :
    (DSValue × Option String) × DSState :=
  match getDataStoreContentRead st with
  | none => ((DSValue.null, none), st)
  | some content => (((assocLookup key content).getD DSValue.null, none), st)

/-- Embeds the write path `getDataStoreContent(true)`: creates the
directory if missing, `lockedfile.Edit` creates an empty file if missing,
and the current document is decoded under the exclusive lock (nil content
for a missing or empty file, modelled by `getD []`). -/
def getDataStoreContentWrite (st : DSState) : DSMap :=
  (st.file).getD []

/-- Embeds `SetDataStoreValue`: read-modify-write under the exclusive
lock; upserts the key and persists the whole document. -/
def SetDataStoreValue (st : DSState) (key : String) (value : DSValue) :
    Option String × DSState :=
  let content := getDataStoreContentWrite st
  let content := assocSet key value content
  (none, { dirExists := true, file := some content })

/-- Embeds `DeleteDataStoreValue`: on an absent key the unchanged
document is written back and a "key not found" error returned; on a
present key the entry is removed, persisted, and its prior value
returned. -/
def DeleteDataStoreValue (st : DSState) (key : String) :
    (DSValue × Option String) × DSState :=
  let content := getDataStoreContentWrite st
  match assocLookup key content with
  | none =>
    ((DSValue.null, some "key not found in data store"),
      { dirExists := true, file := some content })
  | some v =>
    ((v, none), { dirExists := true, file := some (assocRemove key content) })

/-! ## Central configuration reader (pkg/centralconfig) -/

/-- The runtime type of the destination variable passed to
`GetCentralConfigEntry`, which drives the extraction dispatch in
`extractValue`. -/
inductive CCDestType where
  | str
  | bool
  | int
  | float
  | strArray
  | genArray
  | time
  | generic
deriving DecidableEq, Repr

/-- The two error shapes `GetCentralConfigEntry` can produce for a
well-formed document: the missing-key error built in
`GetCentralConfigEntry` itself, and a type-mismatch error surfaced from
`extractValue` (directly or from the `unstructured` accessors). -/
inductive CCError where
  | keyNotFound (key : String)
  | typeMismatch (key : String) (expected : String)
deriving DecidableEq, Repr

def isStrVal : DSValue → Bool
  | DSValue.str _ => true
  | _ => false

/-- Embeds `extractValue`: look the key up in the decoded document and
extract it according to the destination type, validating that the YAML
node's actual type matches.  Result is Go `(ok, err)` plus the value
written through the out pointer.  Notes: the destination is assumed to be
a valid non-nil pointer, whose pointee type `CCDestType` models; the
float destination requires a YAML float scalar, which is outside the
modelled scalar domain, so it always mismatches here; the default branch
is the generic re-marshal round-trip, the identity on decoded generic
values. -/
def extractValue (dest : CCDestType) (values : DSMap) (key : String) :
    Bool × Option CCError × Option DSValue :=
  match assocLookup key values with
  | none => (false, none, none)
  | some v =>
    match dest with
    | CCDestType.str =>
      match v with
      | DSValue.str s => (true, none, some (DSValue.str s))
      | _ => (false, some (CCError.typeMismatch key "string"), none)
    | CCDestType.bool =>
      match v with
      | DSValue.bool b => (true, none, some (DSValue.bool b))
      | _ => (false, some (CCError.typeMismatch key "bool"), none)
    | CCDestType.int =>
      match v with
      | DSValue.int n => (true, none, some (DSValue.int n))
      | _ => (false, some (CCError.typeMismatch key "int"), none)
    | CCDestType.float =>
      (false, some (CCError.typeMismatch key "float64"), none)
    | CCDestType.strArray =>
      match v with
      | DSValue.list xs =>
        if xs.all isStrVal then (true, none, some (DSValue.list xs))
        else (false, some (CCError.typeMismatch key "[]string"), none)
      | _ => (false, some (CCError.typeMismatch key "[]string"), none)
    | CCDestType.genArray =>
      match v with
      | DSValue.list xs => (true, none, some (DSValue.list xs))
      | _ => (false, some (CCError.typeMismatch key "[]interface"), none)
    | CCDestType.time =>
      match v with
      | DSValue.time t => (true, none, some (DSValue.time t))
      | _ => (false, some (CCError.typeMismatch key "time.Time"), none)
    | CCDestType.generic => (true, none, some v)

/-- Embeds `GetCentralConfigEntry` (with `parseConfigFile` inlined as the
`getD` on the optional document): a missing config file is not an error
and behaves as the empty document; an extraction error is returned as-is;
otherwise a missed lookup becomes the distinct "key not found" error.
Result is `(error, value written to the destination)`. -/
def getCentralConfigEntry (file : Option DSMap) (key : String)
    (dest : CCDestType) : Option CCError × Option DSValue :=
  let values := file.getD []
  match extractValue dest values key with
  | (_, some e, _) => (some e, none)
  | (false, none, _) => (some (CCError.keyNotFound key), none)
  | (true, none, out) => (none, out)

/-! ## Local catalog (pkg/catalog/catalog.go) -/

/-- Modelled from the spec: the plugin descriptor (`cli.PluginInfo`,
whose defining file is not among the provided sources); the catalog code
uses its `Name`, `Target` and `InstallationPath` fields, plus the
descriptive payload stored in the path index. -/
structure PluginInfo where
  Name : String
  Target : String
  Description : String
  Version : String
  InstallationPath : String
deriving DecidableEq, Repr, Inhabited

/-- Embeds `PluginAssociation`: (name_target key) → installation path. -/
abbrev PluginAssociation : Type := List (String × String)

/-- Embeds the shared `Catalog` structure persisted in `catalog.yaml`. -/
structure Catalog where
  IndexByPath : List (String × PluginInfo)
  IndexByName : List (String × List String)
  StandAlonePlugins : PluginAssociation
  ServerPlugins : List (String × PluginAssociation)
deriving DecidableEq, Repr

/-- The association sub-map a `ContextCatalog` narrows to: the standalone
map for the empty context name, otherwise the context's sub-map in
`ServerPlugins` (the empty map when the context is new, which
`NewContextCatalog` creates lazily). -/
def scopeMap (c : Catalog) (ctx : String) : PluginAssociation :=
  if ctx = "" then c.StandAlonePlugins
  else (assocLookup ctx c.ServerPlugins).getD []

/-- Embeds `ContextCatalog.Upsert` for the catalog opened on scope `ctx`:
record the installation path under the plugin key in the active scope,
overwrite the path index entry, and append the path to the by-name index
unless already present (`utils.ContainsString` is list membership). -/
def catalogUpsert (c : Catalog) (ctx : String) (p : PluginInfo) : Catalog :=
  let key := pluginNameTarget p.Name p.Target
  let newScope := assocSet key p.InstallationPath (scopeMap c ctx)
  let ibp := assocSet p.InstallationPath p c.IndexByPath
  let paths := (assocLookup key c.IndexByName).getD []
  let ibn :=
    if p.InstallationPath ∈ paths then c.IndexByName
    else assocSet key (paths ++ [p.InstallationPath]) c.IndexByName
  if ctx = "" then
    { c with StandAlonePlugins := newScope, IndexByPath := ibp, IndexByName := ibn }
  else
    { c with
      ServerPlugins := assocSet ctx newScope c.ServerPlugins,
      IndexByPath := ibp,
      IndexByName := ibn }

/-- Embeds `ContextCatalog.List` for the catalog opened on scope `ctx`:
the descriptors of every association of the active scope, resolved via
the shared path index (the zero-value descriptor for a dangling path, as
with a Go map read). -/
def catalogList (c : Catalog) (ctx : String) : List PluginInfo :=
  (scopeMap c ctx).map fun kv => (assocLookup kv.2 c.IndexByPath).getD default

/-- Embeds `ContextCatalog.Get`. -/
def catalogGet (c : Catalog) (ctx : String) (plugin : String) :
    PluginInfo × Bool :=
  match assocLookup plugin (scopeMap c ctx) with
  | none => (default, false)
  | some path =>
    match assocLookup path c.IndexByPath with
    | none => (default, false)
    | some pd => (pd, true)

/-- Embeds `ContextCatalog.Delete` for the catalog opened on scope `ctx`:
remove the association from the active scope only, then persist.  The
shared indexes are untouched. -/
def catalogDelete (c : Catalog) (ctx : String) (key : String) : Catalog :=
  if ctx = "" then
    { c with StandAlonePlugins := assocRemove key c.StandAlonePlugins }
  else
    { c with
      ServerPlugins :=
        assocSet ctx (assocRemove key (scopeMap c ctx)) c.ServerPlugins }

/-! ## Theorems: generic data store -/

/-- C4, counterexample: `GetDataStoreValue` returns `(value, error)` with
no found-flag, and its result on a store where the key is absent is
identical to its result on a store where the key holds the null value —
the two cases the claim says are never conflated. -/
theorem getDataStoreValue_conflates_absent_with_null :
    (GetDataStoreValue { dirExists := true, file := some [] } "k").1 =
      (GetDataStoreValue
        { dirExists := true, file := some [("k", DSValue.null)] } "k").1 ∧
    assocLookup "k" ([] : DSMap) = none ∧
    assocLookup "k" [("k", DSValue.null)] = some DSValue.null :=
  ⟨rfl, rfl, rfl⟩

/-- C4, amended: `GetDataStoreValue` returns a `(value, error)` pair with
no found indication; an absent key yields the nil value with a nil error,
which is exactly the result for a key whose stored value is null, so the
two cases cannot be distinguished from the result of Get. -/
theorem getDataStoreValue_absent_eq_null_stored (d : Bool) (m : DSMap)
    (k : String) (h : assocLookup k m = none) :
    (GetDataStoreValue { dirExists := d, file := some m } k).1 =
      (DSValue.null, none) ∧
    (GetDataStoreValue
        { dirExists := d, file := some (assocSet k DSValue.null m) } k).1 =
      (DSValue.null, none) := by
  constructor
  · simp [GetDataStoreValue, getDataStoreContentRead, h]
  · simp [GetDataStoreValue, getDataStoreContentRead, assocLookup_set_self]

/-- C4 witness. -/
theorem getDataStoreValue_absent_eq_null_stored_witness :
    (GetDataStoreValue
        { dirExists := true, file := some [("a", DSValue.int 1)] } "k").1 =
      (DSValue.null, none) ∧
    (GetDataStoreValue
        { dirExists := true,
          file := some (assocSet "k" DSValue.null [("a", DSValue.int 1)]) } "k").1 =
      (DSValue.null, none) :=
  getDataStoreValue_absent_eq_null_stored true [("a", DSValue.int 1)] "k" rfl

/-- C5: deleting an absent key returns the "key not found" error and
writes the document back unchanged; deleting a present key returns its
prior value, and a subsequent Get finds the key absent (it returns the
same nil result as for a never-set key). -/
theorem deleteDataStoreValue_spec (st : DSState) (k : String) :
    (assocLookup k (getDataStoreContentWrite st) = none →
      (DeleteDataStoreValue st k).1 =
        (DSValue.null, some "key not found in data store") ∧
      ((DeleteDataStoreValue st k).2).file =
        some (getDataStoreContentWrite st)) ∧
    (∀ v, assocLookup k (getDataStoreContentWrite st) = some v →
      (DeleteDataStoreValue st k).1 = (v, none) ∧
      assocLookup k (((DeleteDataStoreValue st k).2).file.getD []) = none ∧
      (GetDataStoreValue (DeleteDataStoreValue st k).2 k).1 =
        (DSValue.null, none)) := by
  constructor
  · intro h
    constructor
    · simp [DeleteDataStoreValue, h]
    · simp [DeleteDataStoreValue, h]
  · intro v h
    refine ⟨?_, ?_, ?_⟩
    · simp [DeleteDataStoreValue, h]
    · simp [DeleteDataStoreValue, h, assocLookup_remove_self]
    · simp [DeleteDataStoreValue, h, GetDataStoreValue,
            getDataStoreContentRead, assocLookup_remove_self]

/-- C5 witness. -/
theorem deleteDataStoreValue_spec_witness :
    ((DeleteDataStoreValue
        { dirExists := true, file := some [("a", DSValue.int 1)] } "b").1 =
      (DSValue.null, some "key not found in data store") ∧
      ((DeleteDataStoreValue
          { dirExists := true, file := some [("a", DSValue.int 1)] } "b").2).file =
        some [("a", DSValue.int 1)]) ∧
    ((DeleteDataStoreValue
        { dirExists := true, file := some [("a", DSValue.int 1)] } "a").1 =
      (DSValue.int 1, none) ∧
      (GetDataStoreValue
          (DeleteDataStoreValue
            { dirExists := true, file := some [("a", DSValue.int 1)] } "a").2 "a").1 =
        (DSValue.null, none)) := by
  refine ⟨(deleteDataStoreValue_spec
      { dirExists := true, file := some [("a", DSValue.int 1)] } "b").1 rfl, ?_, ?_⟩
  · exact ((deleteDataStoreValue_spec
      { dirExists := true, file := some [("a", DSValue.int 1)] } "a").2
        (DSValue.int 1) rfl).1
  · exact ((deleteDataStoreValue_spec
      { dirExists := true, file := some [("a", DSValue.int 1)] } "a").2
        (DSValue.int 1) rfl).2.2

/-- C6: Set followed immediately by Get returns the stored value with no
error from either call.  The embedding stores decoded generic YAML
values, on which the YAML marshal/unmarshal round-trip performed by the
store is the identity, so "equal up to YAML-driven type normalization"
is plain equality here. -/
theorem set_then_get_data_store (st : DSState) (k : String) (v : DSValue) :
    (SetDataStoreValue st k v).1 = none ∧
    (GetDataStoreValue (SetDataStoreValue st k v).2 k).1 = (v, none) := by
  refine ⟨rfl, ?_⟩
  simp [SetDataStoreValue, GetDataStoreValue, getDataStoreContentRead,
        assocLookup_set_self]

/-- C7: with the backing file absent (in particular when its directory is
missing), Get returns the nil value and nil error for every key, and
leaves the state untouched: the read path creates neither the directory
nor the file. -/
theorem getDataStoreValue_missing_file (st : DSState) (k : String)
    (h : st.file = none) :
    GetDataStoreValue st k = ((DSValue.null, none), st) := by
  simp [GetDataStoreValue, getDataStoreContentRead, h]

/-- C7 witness. -/
theorem getDataStoreValue_missing_file_witness :
    GetDataStoreValue { dirExists := false, file := none } "k" =
      ((DSValue.null, none), { dirExists := false, file := none }) :=
  getDataStoreValue_missing_file { dirExists := false, file := none } "k" rfl

/-! ## Theorems: central configuration reader -/

/-- C8: a missing config file behaves exactly like the empty document
(every lookup misses with the missing-key error, not an I/O error), and a
missing key is reported distinctly from a present key: for a present key
the missing-key error is never produced (the result is success or a
type-mismatch error, a different constructor of `CCError`). -/
theorem getCentralConfigEntry_missing_key_distinct (m : DSMap) (k : String)
    (dest : CCDestType) :
    getCentralConfigEntry none k dest = getCentralConfigEntry (some []) k dest ∧
    (getCentralConfigEntry none k dest).1 = some (CCError.keyNotFound k) ∧
    (assocLookup k m = none →
      (getCentralConfigEntry (some m) k dest).1 =
        some (CCError.keyNotFound k)) ∧
    (∀ v, assocLookup k m = some v →
      (getCentralConfigEntry (some m) k dest).1 ≠
        some (CCError.keyNotFound k)) := by
  refine ⟨rfl, rfl, ?_, ?_⟩
  · intro h
    simp [getCentralConfigEntry, extractValue, h]
  · intro v h
    cases dest <;> cases v <;>
      (simp [getCentralConfigEntry, extractValue, h];
        try (split_ifs <;> simp))

/-- C8 witness. -/
theorem getCentralConfigEntry_missing_key_distinct_witness :
    (getCentralConfigEntry (some [("testKey", DSValue.int 1)]) "other"
        CCDestType.str).1 = some (CCError.keyNotFound "other") ∧
    (getCentralConfigEntry (some [("testKey", DSValue.int 1)]) "testKey"
        CCDestType.str).1 ≠ some (CCError.keyNotFound "testKey") :=
  ⟨(getCentralConfigEntry_missing_key_distinct [("testKey", DSValue.int 1)]
      "other" CCDestType.str).2.2.1 rfl,
    (getCentralConfigEntry_missing_key_distinct [("testKey", DSValue.int 1)]
      "testKey" CCDestType.str).2.2.2 (DSValue.int 1) rfl⟩

/-! ## Theorems: local catalog -/

/-- Fixture: a descriptor installed at a path referenced by the context
scope of `catalogFixture`. -/
def pluginFoo : PluginInfo :=
  { Name := "foo", Target := "", Description := "descA",
    Version := "v1.0.0", InstallationPath := "/root/.tanzu/bin/foo" }

/-- Fixture: a different plugin whose installation path coincides with
the one already referenced by the context scope. -/
def pluginBar : PluginInfo :=
  { Name := "bar", Target := "", Description := "descB",
    Version := "v2.0.0", InstallationPath := "/root/.tanzu/bin/foo" }

/-- Fixture: a shared catalog whose context scope `myctx` references the
installation path of `pluginFoo`. -/
def catalogFixture : Catalog :=
  { IndexByPath := [("/root/.tanzu/bin/foo", pluginFoo)],
    IndexByName := [("foo", ["/root/.tanzu/bin/foo"])],
    StandAlonePlugins := [],
    ServerPlugins := [("myctx", [("foo", "/root/.tanzu/bin/foo")])] }

/-- C9, counterexample: an Upsert into the standalone scope can make the
upserted plugin appear in the List of a named context, because Upsert
overwrites the shared `IndexByPath` entry for its installation path and
List resolves every scope association through that shared index.  Here
`pluginBar`, upserted standalone, appears in the `myctx` List although it
was not there before. -/
theorem catalogUpsert_shared_path_leaks :
    pluginBar ∈ catalogList (catalogUpsert catalogFixture "" pluginBar) "myctx" ∧
    pluginBar ∉ catalogList catalogFixture "myctx" := by
  constructor
  · simp [catalogUpsert, catalogFixture, catalogList, scopeMap, assocSet,
          assocLookup, pluginNameTarget, pluginBar, pluginFoo]
  · simp [catalogFixture, catalogList, scopeMap, assocLookup, pluginBar,
          pluginFoo]

/-- C9, amended: Upsert never modifies the association map of any other
scope; and provided the upserted plugin's installation path is not
referenced by the other scope's associations, the other scope's List is
completely unchanged (in particular the upserted plugin does not appear
in it). -/
theorem catalogUpsert_scope_isolation (c : Catalog) (s s2 : String)
    (p : PluginInfo) (hs : s2 ≠ s)
    (hpath : ∀ kv ∈ scopeMap c s2, kv.2 ≠ p.InstallationPath) :
    scopeMap (catalogUpsert c s p) s2 = scopeMap c s2 ∧
    catalogList (catalogUpsert c s p) s2 = catalogList c s2 := by
  have hscope : scopeMap (catalogUpsert c s p) s2 = scopeMap c s2 := by
    by_cases h2 : s2 = ""
    · subst h2
      have hsne : s ≠ "" := fun h => hs h.symm
      simp [catalogUpsert, scopeMap, hsne]
    · by_cases h1 : s = ""
      · subst h1
        simp [catalogUpsert, scopeMap, h2]
      · simp only [catalogUpsert, if_neg h1, scopeMap, if_neg h2]
        rw [assocLookup_set_ne hs]
  have hibp : (catalogUpsert c s p).IndexByPath =
      assocSet p.InstallationPath p c.IndexByPath := by
    by_cases h1 : s = "" <;> simp [catalogUpsert, h1]
  refine ⟨hscope, ?_⟩
  unfold catalogList
  rw [hscope, hibp]
  apply List.map_congr_left
  intro kv hkv
  rw [assocLookup_set_ne (hpath kv hkv)]

/-- C9 witness. -/
theorem catalogUpsert_scope_isolation_witness :
    scopeMap
        (catalogUpsert catalogFixture ""
          { Name := "baz", Target := "", Description := "descC",
            Version := "v3.0.0", InstallationPath := "/root/.tanzu/bin/baz" })
        "myctx" =
      scopeMap catalogFixture "myctx" ∧
    catalogList
        (catalogUpsert catalogFixture ""
          { Name := "baz", Target := "", Description := "descC",
            Version := "v3.0.0", InstallationPath := "/root/.tanzu/bin/baz" })
        "myctx" =
      catalogList catalogFixture "myctx" :=
  catalogUpsert_scope_isolation catalogFixture "" "myctx"
    { Name := "baz", Target := "", Description := "descC",
      Version := "v3.0.0", InstallationPath := "/root/.tanzu/bin/baz" }
    (by decide) (by decide)

/-- C10: Delete only removes the key from the active scope: the shared
`IndexByPath` and `IndexByName` are unchanged, every other scope's
association map is unchanged, the active scope loses exactly the key, and
deleting a key absent from the active scope leaves every scope's
association map (and both indexes) unchanged. -/
theorem catalogDelete_frame (c : Catalog) (s k : String) :
    (catalogDelete c s k).IndexByPath = c.IndexByPath ∧
    (catalogDelete c s k).IndexByName = c.IndexByName ∧
    (∀ s2, s2 ≠ s → scopeMap (catalogDelete c s k) s2 = scopeMap c s2) ∧
    scopeMap (catalogDelete c s k) s = assocRemove k (scopeMap c s) ∧
    (assocLookup k (scopeMap c s) = none →
      ∀ s2, scopeMap (catalogDelete c s k) s2 = scopeMap c s2) := by
  have hibp : (catalogDelete c s k).IndexByPath = c.IndexByPath := by
    by_cases h1 : s = "" <;> simp [catalogDelete, h1]
  have hibn : (catalogDelete c s k).IndexByName = c.IndexByName := by
    by_cases h1 : s = "" <;> simp [catalogDelete, h1]
  have hother : ∀ s2, s2 ≠ s →
      scopeMap (catalogDelete c s k) s2 = scopeMap c s2 := by
    intro s2 hs
    by_cases h2 : s2 = ""
    · subst h2
      have hsne : s ≠ "" := fun h => hs h.symm
      simp [catalogDelete, scopeMap, hsne]
    · by_cases h1 : s = ""
      · subst h1
        simp [catalogDelete, scopeMap, h2]
      · simp only [catalogDelete, if_neg h1, scopeMap, if_neg h2]
        rw [assocLookup_set_ne hs]
  have hactive : scopeMap (catalogDelete c s k) s =
      assocRemove k (scopeMap c s) := by
    by_cases h1 : s = ""
    · subst h1
      simp [catalogDelete, scopeMap]
    · simp only [catalogDelete, if_neg h1, scopeMap]
      rw [assocLookup_set_self]
      simp
  refine ⟨hibp, hibn, hother, hactive, ?_⟩
  intro habs s2
  by_cases hs : s2 = s
  · subst hs
    rw [hactive, assocRemove_of_absent habs]
  · exact hother s2 hs

/-- C10 witness. -/
theorem catalogDelete_frame_witness :
    (catalogDelete catalogFixture "myctx" "foo").IndexByPath =
      catalogFixture.IndexByPath ∧
    scopeMap (catalogDelete catalogFixture "myctx" "foo") "" =
      scopeMap catalogFixture "" ∧
    scopeMap (catalogDelete catalogFixture "myctx" "foo") "myctx" =
      assocRemove "foo" (scopeMap catalogFixture "myctx") ∧
    scopeMap (catalogDelete catalogFixture "myctx" "nope") "otherctx" =
      scopeMap catalogFixture "otherctx" :=
  ⟨(catalogDelete_frame catalogFixture "myctx" "foo").1,
    (catalogDelete_frame catalogFixture "myctx" "foo").2.2.1 "" (by decide),
    (catalogDelete_frame catalogFixture "myctx" "foo").2.2.2.1,
    (catalogDelete_frame catalogFixture "myctx" "nope").2.2.2.2 (by decide)
      "otherctx"⟩

/-! ## Theorems: discovery resolution -/

theorem sortVersions_fst_eq_nil_iff (vs : List String) :
    (sortVersions vs).1 = [] ↔ vs = [] := by
  unfold sortVersions
  split
  · show List.insertionSort verLe vs = [] ↔ vs = []
    have hp := List.perm_insertionSort verLe vs
    constructor
    · intro h
      rw [h] at hp
      exact (hp.symm).eq_nil
    · intro h
      subst h
      rfl
  · exact Iff.rfl

theorem sorted_verLe_getLast {l : List String} (hs : List.Sorted verLe l)
    (hne : l ≠ []) : ∀ x ∈ l, verLe x (l.getLast hne) := by
  induction l with
  | nil => cases hne rfl
  | cons a t ih =>
    intro x hx
    rcases List.mem_cons.mp hx with hxa | hxt
    · subst hxa
      cases t with
      | nil => exact verLe_refl x
      | cons b t2 =>
        have hne2 : b :: t2 ≠ [] := by simp
        have hmem := List.getLast_mem hne2
        have hrel := (List.sorted_cons.mp hs).1 _ hmem
        rw [List.getLast_cons hne2]
        exact hrel
    · have hne2 : t ≠ [] := by
        intro h
        subst h
        cases hxt
      have hres := ih (List.sorted_cons.mp hs).2 hne2 x hxt
      rw [List.getLast_cons hne2]
      exact hres

/-- Fixture: a `Discovered` record with every field at its zero value. -/
def emptyDiscovered : Discovered :=
  { Name := "", Description := "", RecommendedVersion := "",
    InstalledVersion := "", SupportedVersions := [], Optional := false,
    Scope := "", Source := "", ContextName := "", DiscoveryType := "",
    Target := "", Status := "", Distribution := [] }

/-- C3, counterexample: the recommended-version computation of
`appendPlugin`, applied to a plugin with empty `SupportedVersions` and no
source-supplied recommended version, crashes (Go indexes
`SupportedVersions[-1]`, an index-out-of-range panic, embedded as `none`)
instead of returning the empty string. -/
theorem appendPlugin_empty_versions_crash :
    appendPlugin [] emptyDiscovered = none := rfl

/-- C3, amended: the computation is not total: it panics exactly when the
source-supplied recommended version is empty and `SupportedVersions` is
empty; in every other case it returns a result. -/
theorem appendPlugin_none_iff_empty (all : List Discovered) (p : Discovered) :
    appendPlugin all p = none ↔
      p.RecommendedVersion = "" ∧ p.SupportedVersions = [] := by
  unfold appendPlugin
  by_cases hrec : p.RecommendedVersion = ""
  · cases hsl : (sortVersions p.SupportedVersions).1.getLast? with
    | none =>
      have h1 : (sortVersions p.SupportedVersions).1 = [] :=
        List.getLast?_eq_none_iff.mp hsl
      have h2 : p.SupportedVersions = [] :=
        (sortVersions_fst_eq_nil_iff p.SupportedVersions).mp h1
      simp only [hsl]
      simp [hrec, h2]
    | some last =>
      have h2 : p.SupportedVersions ≠ [] := by
        intro hnil
        rw [(sortVersions_fst_eq_nil_iff p.SupportedVersions).mpr hnil] at hsl
        cases hsl
      simp [hrec, hsl, h2]
  · simp [hrec]

/-- C2: for a completed plugin with no source-supplied recommended
version and a non-empty set of supported versions (each a well-formed
semantic version), the computed recommended version is a member of the
supported versions and is greater than or equal to every member under the
semantic-version ordering. -/
theorem appendPlugin_recommended_version_max (all : List Discovered)
    (p : Discovered) (hrec : p.RecommendedVersion = "")
    (hne : p.SupportedVersions ≠ [])
    (hparse : ∀ v ∈ p.SupportedVersions, (parseSemVer v).isSome = true) :
    ∃ q, appendPlugin all p = some (all ++ [q]) ∧
      q.RecommendedVersion ∈ p.SupportedVersions ∧
      ∀ v ∈ p.SupportedVersions, verLe v q.RecommendedVersion := by
  have hall : (p.SupportedVersions.all fun v => (parseSemVer v).isSome) = true :=
    List.all_eq_true.mpr hparse
  have hsv : (sortVersions p.SupportedVersions).1 =
      List.insertionSort verLe p.SupportedVersions := by
    unfold sortVersions
    rw [if_pos hall]
  have hperm :
      List.Perm (sortVersions p.SupportedVersions).1 p.SupportedVersions := by
    rw [hsv]
    exact List.perm_insertionSort verLe p.SupportedVersions
  have hsorted : List.Sorted verLe (sortVersions p.SupportedVersions).1 := by
    rw [hsv]
    exact List.sorted_insertionSort verLe p.SupportedVersions
  have hne2 : (sortVersions p.SupportedVersions).1 ≠ [] := by
    intro h
    exact hne ((sortVersions_fst_eq_nil_iff p.SupportedVersions).mp h)
  refine ⟨{ p with
      SupportedVersions := (sortVersions p.SupportedVersions).1
      RecommendedVersion := (sortVersions p.SupportedVersions).1.getLast hne2 },
    ?_, ?_, ?_⟩
  · unfold appendPlugin
    simp only [hrec, if_pos rfl]
    rw [List.getLast?_eq_getLast _ hne2]
    simp
  · exact hperm.mem_iff.mp (List.getLast_mem hne2)
  · intro v hv
    exact sorted_verLe_getLast hsorted hne2 v (hperm.mem_iff.mpr hv)

/-- C2 witness. -/
theorem appendPlugin_recommended_version_max_witness :
    ∃ q, appendPlugin []
        { emptyDiscovered with SupportedVersions := ["v2.0.0", "v1.0.0"] } =
        some ([] ++ [q]) ∧
      q.RecommendedVersion ∈ ["v2.0.0", "v1.0.0"] ∧
      ∀ v ∈ ["v2.0.0", "v1.0.0"], verLe v q.RecommendedVersion :=
  appendPlugin_recommended_version_max []
    { emptyDiscovered with SupportedVersions := ["v2.0.0", "v1.0.0"] }
    rfl (by decide) (by decide)

/-- Fixture: a single inventory row for plugin `cluster`, target
kubernetes, version v1.0.0. -/
def rowClusterV1 : CentralRepoRow :=
  { name := "cluster", target := "kubernetes", recommendedVersion := "",
    version := "v1.0.0", hidden := "false", description := "d",
    publisher := "pub", vendor := "ven", os := "linux", arch := "amd64",
    digest := "0123", uri := "cluster/linux/amd64:v1.0.0" }

/-- C1, failing input: on the one-row stream `rowClusterV1` the scan
returns one plugin whose `SupportedVersions` is `[v1.0.0]` but whose
`Distribution` is empty — the end-of-stream path appends the final plugin
without flushing the open artifact list into `artifacts` and without
assigning `Distribution`, so the final open version's artifacts are
dropped, contradicting the required Distribution entry for every
supported version. -/
theorem getPluginsFromDB_drops_final_distribution :
    ∃ p, getPluginsFromDB "example.com/tanzu/plugin-inventory:latest"
        [rowClusterV1] = some [p] ∧
      p.SupportedVersions = ["v1.0.0"] ∧
      p.Distribution = [] ∧
      assocLookup "v1.0.0" p.Distribution = none := by
  exact ⟨_, rfl, rfl, rfl, rfl⟩

end TanzuCLI
